import Mathlib

/-!
Verification of the LanguageClient dispatch core
(src/LanguageClient/LanguageClient.py), shallowly embedded in Lean.

Modelling conventions:
* JSON payloads are `JVal`; Python subscripting and field access that can
  raise (KeyError, IndexError, TypeError) is `Except PyErr`.
* Editor-facing side effects (asyncEcho, asyncCommand, asyncEval), RPC
  sends, logging calls and caller-supplied callback invocations are
  recorded as an ordered `List Effect`; asyncEcho is recorded with the
  message before util.escape (util.py is outside the verified sources and
  only rewrites quoting for the echom command line).
* A Python method that can raise returns its effects emitted so far
  together with `Option PyErr` (`some e` when the exception escapes it).
* The pending-call dict `self.queue` is an association list with unique
  keys: dict assignment is `insertQ` (remove the old binding, add the new
  one), deletion is `eraseQ`, lookup is `lookupQ`; only lookup, insert and
  delete are ever observed, never iteration order.
-/

namespace LanguageClient

/-- JSON-like payload values exchanged with the server. -/
inductive JVal : Type where
  | null : JVal
  | str : String → JVal
  | num : Int → JVal
  | arr : List JVal → JVal
  | obj : List (String × JVal) → JVal

/-- Python exceptions the modelled code can raise. -/
inductive PyErr : Type where
  | keyError : PyErr
  | indexError : PyErr
  | typeError : PyErr
  | valueError : PyErr
  | attributeError : PyErr
  deriving DecidableEq

/-- Python `v[key]` on a JSON value: KeyError when the key is absent,
TypeError when the value is not a dict. -/
def JVal.getField : JVal → String → Except PyErr JVal
  | .obj fields, key =>
    match List.lookup key fields with
    | some v => .ok v
    | none => .error .keyError
  | _, _ => .error .typeError

/-- Use of a JSON value as a Python int (e.g. in `x + 1`): TypeError when
the value is not numeric. -/
def JVal.asInt : JVal → Except PyErr Int
  | .num n => .ok n
  | _ => .error .typeError

/-- Chained subscripting `v[k1][k2]...`. -/
def JVal.getPath : JVal → List String → Except PyErr JVal
  | v, [] => .ok v
  | v, key :: keys =>
    match v.getField key with
    | .ok w => w.getPath keys
    | .error e => .error e

/-- Rendering performed by str.format on an interpolated value. The client
only ever interpolates strings and integers; other shapes get a fixed
placeholder (they never occur in the verified properties). -/
def JVal.pyStr : JVal → String
  | .str s => s
  | .num n => toString n
  | _ => "<object>"

/-- Python len() of a JSON value: list length, string length, number of
dict keys; TypeError otherwise. -/
def pyLen : JVal → Except PyErr Nat
  | .arr xs => .ok xs.length
  | .str s => .ok s.length
  | .obj fields => .ok fields.length
  | _ => .error .typeError

/-- Python v[0], as used to take the first positional argument: list head,
first character of a string; on a dict this is key lookup with the int key
0, a KeyError since JSON object keys are strings; TypeError otherwise. -/
def pyIndex0 : JVal → Except PyErr JVal
  | .arr (a :: _) => .ok a
  | .arr [] => .error .indexError
  | .str s =>
    match s.data with
    | c :: _ => .ok (.str (String.mk [c]))
    | [] => .error .indexError
  | .obj _ => .error .keyError
  | _ => .error .typeError

/-- Python unpacking a, b, c = v: a 3-element list, the characters of a
3-character string, or the keys of a 3-key dict; ValueError on any other
length of an iterable, TypeError on a non-iterable. -/
def pyUnpack3 : JVal → Except PyErr (JVal × JVal × JVal)
  | .arr [a, b, c] => .ok (a, b, c)
  | .arr _ => .error .valueError
  | .str s =>
    match s.data with
    | [a, b, c] =>
      .ok (.str (String.mk [a]), .str (String.mk [b]), .str (String.mk [c]))
    | _ => .error .valueError
  | .obj [a, b, c] => .ok (.str a.1, .str b.1, .str c.1)
  | .obj _ => .error .valueError
  | _ => .error .typeError

/-- Python unpacking a, b, c, d = v, as pyUnpack3 but for four targets. -/
def pyUnpack4 : JVal → Except PyErr (JVal × JVal × JVal × JVal)
  | .arr [a, b, c, d] => .ok (a, b, c, d)
  | .arr _ => .error .valueError
  | .str s =>
    match s.data with
    | [a, b, c, d] =>
      .ok (.str (String.mk [a]), .str (String.mk [b]),
           .str (String.mk [c]), .str (String.mk [d]))
    | _ => .error .valueError
  | .obj [a, b, c, d] => .ok (.str a.1, .str b.1, .str c.1, .str d.1)
  | .obj _ => .error .valueError
  | _ => .error .typeError

/-- Observable side effects of the client, in emission order. -/
inductive Effect : Type where
  | echo : String → Effect
  | command : String → Effect
  | evalExpr : String → Effect
  | callback : JVal → Effect
  | rpcCall : String → JVal → Option Nat → Effect
  | setCapabilities : JVal → Effect
  | logInfo : String → Effect
  | logWarn : String → Effect
  | logError : Effect
  | logException : String → Effect

/-- A registered continuation: consumes the response result, emits effects,
and possibly raises. In the source a continuation can also issue fresh
requests, but only ever under fresh ids from incMid; the pending table is
never re-keyed by a continuation, so continuations here return effects
only. -/
def Cont : Type := JVal → List Effect × Option PyErr

/-- The client state the claims are about: the id counter `self.mid` and the
pending-call dict `self.queue`. -/
structure ClientState where
  mid : Nat
  queue : List (Nat × Cont)

/-- Dict lookup `self.queue[mid]`. -/
def lookupQ (q : List (Nat × Cont)) (k : Nat) : Option Cont :=
  List.lookup k q

/-- Dict deletion `del self.queue[mid]` (the successful case). -/
def eraseQ (q : List (Nat × Cont)) (k : Nat) : List (Nat × Cont) :=
  q.filter (fun p => p.1 != k)

/-- Dict assignment `self.queue[mid] = cont`. -/
def insertQ (q : List (Nat × Cont)) (k : Nat) (v : Cont) : List (Nat × Cont) :=
  (k, v) :: eraseQ q k

/-- Ambient editor state read by the Adapter when arguments are omitted:
current buffer name, its filetype, the 1-based cursor position from
getpos, and the process id used in the initialize request. -/
structure EditorCtx where
  bufferName : String
  filetype : String
  posLine : Int
  posCharacter : Int
  pid : Int

/-- getPos: read the 1-based cursor position and convert to 0-based. -/
def getPos (ctx : EditorCtx) : Int × Int :=
  (ctx.posLine - 1, ctx.posCharacter - 1)

/-- Modelled from the spec: util.convertToURI is outside the verified
sources (the spec lists path/URI conversion among external collaborators);
no claim depends on its output, only on which request parameters are
sent. -/
def convertToURI (filename : String) : String :=
  "file://" ++ filename

/-- Modelled from the spec: util.getRootPath is outside the verified
sources; it resolves a project root from a file path, and no claim depends
on its output. -/
def getRootPath (filename : String) : String :=
  filename

/-- incMid: return the current id and bump the counter. -/
def incMid (st : ClientState) : Nat × ClientState :=
  (st.mid, { st with mid := st.mid + 1 })

/-- handleInitializeResponse: store the capabilities (modelled as an
effect), echo a start message, then invoke the callback when present. -/
def handleInitializeResponse (result : JVal) (cbPresent : Bool) :
    List Effect × Option PyErr :=
  match result.getField "capabilities" with
  | .error e => ([], some e)
  | .ok caps =>
    ([Effect.setCapabilities caps, Effect.echo "LanguageClient started."]
      ++ (if cbPresent then [Effect.callback result] else []), none)

/-- The loop `for content in result[contents]: value += content[value]`,
with the accumulated string. -/
def hoverFold : List JVal → String → Except PyErr String
  | [], acc => .ok acc
  | content :: rest, acc =>
    match content.getField "value" with
    | .ok (.str s) => hoverFold rest (acc ++ s)
    | .ok _ => .error .typeError
    | .error e => .error e

/-- handleTextDocumentHoverResponse: concatenate the fragment values, echo
the result, then invoke the callback with it when present. -/
def handleTextDocumentHoverResponse (result : JVal) (cbPresent : Bool) :
    List Effect × Option PyErr :=
  match result.getField "contents" with
  | .error e => ([], some e)
  | .ok (.arr contents) =>
    match hoverFold contents "" with
    | .error e => ([], some e)
    | .ok value =>
      ([Effect.echo value]
        ++ (if cbPresent then [Effect.callback (.str value)] else []), none)
  | .ok _ => ([], some .typeError)

/-- handleTextDocumentDefinitionResponse: warn when more than one location
was returned, act on the first only (IndexError on an empty list), move
the cursor to its 1-based start, then invoke the callback with the 1-based
coordinates when present. The test for more than one location, written
len(result) > 1 in the source, is expressed structurally on the list. -/
def handleTextDocumentDefinitionResponse (result : JVal) (cbPresent : Bool) :
    List Effect × Option PyErr :=
  match result with
  | .arr locs =>
    let warnEffects :=
      match locs with
      | _ :: _ :: _ =>
        [Effect.logWarn "Handling multiple definition are not implemented yet."]
      | _ => []
    match locs with
    | [] => (warnEffects, some .indexError)
    | defn :: _ =>
      match defn.getField "uri" with
      | .error e => (warnEffects, some e)
      | .ok _ =>
        match (defn.getPath ["range", "start", "line"]).bind JVal.asInt with
        | .error e => (warnEffects, some e)
        | .ok line0 =>
          match (defn.getPath ["range", "start", "character"]).bind JVal.asInt with
          | .error e => (warnEffects, some e)
          | .ok character0 =>
            let line := line0 + 1
            let character := character0 + 1
            (warnEffects
              ++ [Effect.evalExpr
                    ("cursor(" ++ toString line ++ ", " ++ toString character ++ ")")]
              ++ (if cbPresent then
                    [Effect.callback (.arr [.num line, .num character])]
                  else []), none)
  | _ => ([], some .typeError)

/-- The inner loop of applyChanges over one document: each edit becomes one
normal-mode command built from its own 1-based coordinates and newText. -/
def applyEditList : List JVal → List Effect × Option PyErr
  | [] => ([], none)
  | edit :: rest =>
    match (edit.getPath ["range", "start", "line"]).bind JVal.asInt with
    | .error e => ([], some e)
    | .ok line0 =>
      match (edit.getPath ["range", "start", "character"]).bind JVal.asInt with
      | .error e => ([], some e)
      | .ok character0 =>
        match edit.getField "newText" with
        | .error e => ([], some e)
        | .ok newText =>
          let cmd := Effect.command
            ("normal! " ++ toString (line0 + 1) ++ "G"
              ++ toString (character0 + 1) ++ "|cw" ++ newText.pyStr)
          let res := applyEditList rest
          (cmd :: res.1, res.2)

/-- The outer loop of applyChanges over `changes.items()`: each value must
be a list of edits. -/
def applyDocLoop : List (String × JVal) → List Effect × Option PyErr
  | [] => ([], none)
  | (_, edits) :: rest =>
    match edits with
    | .arr editList =>
      match applyEditList editList with
      | (effects, some e) => (effects, some e)
      | (effects, none) =>
        let res := applyDocLoop rest
        (effects ++ res.1, res.2)
    | _ => ([], some .typeError)

/-- applyChanges: emit one command per edit in the given order, then restore
the cursor to curPos (1-based again); curPos entries are indexed and must
be numeric. -/
def applyChanges (changes : JVal) (curPos : List JVal) :
    List Effect × Option PyErr :=
  match changes with
  | .obj docs =>
    match applyDocLoop docs with
    | (effects, some e) => (effects, some e)
    | (effects, none) =>
      match curPos.get? 0 with
      | none => (effects, some .indexError)
      | some v0 =>
        match v0.asInt with
        | .error e => (effects, some e)
        | .ok l =>
          match curPos.get? 1 with
          | none => (effects, some .indexError)
          | some v1 =>
            match v1.asInt with
            | .error e => (effects, some e)
            | .ok c =>
              (effects
                ++ [Effect.command
                      ("normal! " ++ toString (l + 1) ++ "G"
                        ++ toString (c + 1) ++ "|")], none)
  | _ => ([], some .typeError)

/-- handleTextDocumentRenameResponse: apply the edits from
result[changes]. The caller-supplied callback is accepted (it was bound
into the continuation at registration) but the body never invokes it. -/
def handleTextDocumentRenameResponse (result : JVal) (curPos : List JVal)
    (cbPresent : Bool) : List Effect × Option PyErr :=
  match result.getField "changes" with
  | .error e => ([], some e)
  | .ok changes => applyChanges changes curPos

/-- handleTextDocumentDocumentSymbolResponse: pass the raw result to the
callback when present. -/
def handleTextDocumentDocumentSymbolResponse (result : JVal) (cbPresent : Bool) :
    List Effect × Option PyErr :=
  ((if cbPresent then [Effect.callback result] else []), none)

/-- The loop of textDocument_publishDiagnostics over params[diagnostics]:
read source, severity and message of each diagnostic, echo the message. -/
def diagnosticsLoop : List JVal → List Effect × Option PyErr
  | [] => ([], none)
  | diagnostic :: rest =>
    match diagnostic.getField "source" with
    | .error e => ([], some e)
    | .ok _ =>
      match diagnostic.getField "severity" with
      | .error e => ([], some e)
      | .ok _ =>
        match diagnostic.getField "message" with
        | .error e => ([], some e)
        | .ok message =>
          let res := diagnosticsLoop rest
          (Effect.echo message.pyStr :: res.1, res.2)

/-- textDocument_publishDiagnostics: the one server-to-client notification
handler the class defines. -/
def textDocument_publishDiagnostics (params : JVal) :
    List Effect × Option PyErr :=
  match params.getField "uri" with
  | .error e => ([], some e)
  | .ok _ =>
    match params.getField "diagnostics" with
    | .error e => ([], some e)
    | .ok (.arr diagnostics) => diagnosticsLoop diagnostics
    | .ok _ => ([], some .typeError)

/-- The handler-name derivation `message[method].replace(slash, underscore)`;
both pattern and replacement are single characters, so the replacement is a
character map. -/
def methodHandlerName (method : String) : String :=
  String.mk (method.data.map (fun c => if c = '/' then '_' else c))

/-- Outcome of one Adapter operation: the state afterwards, the effects
emitted, and the exception escaping it, if any. -/
structure OpOut where
  state : ClientState
  effects : List Effect
  raised : Option PyErr

/-- Argument resolution shared by hover and definition, over the raw args
object (a list when called as an editor function, the message params when
reached through getattr dispatch): empty args reads the buffer name and
cursor from the editor; otherwise filename, line, character unpack from
args (the filename must be a string for util.convertToURI, which is
outside the verified sources; line and character pass into the payload
unchecked). -/
def resolveFLC (ctx : EditorCtx) (args : JVal) :
    Except PyErr (String × JVal × JVal) :=
  match pyLen args with
  | .error e => .error e
  | .ok 0 =>
    let pos := getPos ctx
    .ok (ctx.bufferName, .num pos.1, .num pos.2)
  | .ok _ =>
    match pyUnpack3 args with
    | .error e => .error e
    | .ok (f, line, character) =>
      match f with
      | .str filename => .ok (filename, line, character)
      | _ => .error .typeError

/-- The args[0]-or-default resolution of didOpen, documentSymbol and
initialize over the raw args object: empty args falls back to the given
editor-derived value; otherwise args[0] must be a string for the util path
helpers (convertToURI, getRootPath; both outside the verified sources). -/
def resolveSingle (dflt : String) (args : JVal) : Except PyErr String :=
  match pyLen args with
  | .error e => .error e
  | .ok 0 => .ok dflt
  | .ok _ =>
    match pyIndex0 args with
    | .error e => .error e
    | .ok (.str s) => .ok s
    | .ok _ => .error .typeError

/-- Argument resolution of rename over the raw args object: a one-element
args is the new name with the rest read from the editor; otherwise
filename, line, character, newName unpack from args. -/
def resolveRenameArgs (ctx : EditorCtx) (args : JVal) :
    Except PyErr (String × JVal × JVal × JVal) :=
  match pyLen args with
  | .error e => .error e
  | .ok 1 =>
    match pyIndex0 args with
    | .error e => .error e
    | .ok newName =>
      let pos := getPos ctx
      .ok (ctx.bufferName, .num pos.1, .num pos.2, newName)
  | .ok _ =>
    match pyUnpack4 args with
    | .error e => .error e
    | .ok (f, line, character, newName) =>
      match f with
      | .str filename => .ok (filename, line, character, newName)
      | _ => .error .typeError

/-- The textDocument/position request payload. -/
def positionParams (filename : String) (line character : JVal) : JVal :=
  .obj [("textDocument", .obj [("uri", .str (convertToURI filename))]),
        ("position", .obj [("line", line), ("character", character)])]

/-- LanguageClient.initialize over the raw args object (named
initializeOpRaw; the source name is a Lean keyword). -/
def initializeOpRaw (st : ClientState) (ctx : EditorCtx) (alive : Bool)
    (args : JVal) (cbPresent : Bool) : OpOut :=
  let info := Effect.logInfo "initialize"
  if !alive then ⟨st, [info], none⟩
  else
    match resolveSingle (getRootPath ctx.bufferName) args with
    | .error e => ⟨st, [info], some e⟩
    | .ok rootPath =>
      let alloc := incMid st
      let cont : Cont := fun result => handleInitializeResponse result cbPresent
      let st2 := { alloc.2 with queue := insertQ alloc.2.queue alloc.1 cont }
      ⟨st2,
        [info,
         Effect.rpcCall "initialize"
           (.obj [("processId", .num ctx.pid),
                  ("rootPath", .str rootPath),
                  ("rootUri", .str (convertToURI rootPath)),
                  ("capabilities", .obj []),
                  ("trace", .str "verbose")]) (some alloc.1)], none⟩

/-- The editor-facing entry point of initialize: neovim passes the
arguments as a list. -/
def initializeOp (st : ClientState) (ctx : EditorCtx) (alive : Bool)
    (args : List JVal) (cbPresent : Bool) : OpOut :=
  initializeOpRaw st ctx alive (.arr args) cbPresent

/-- LanguageClient.textDocument_didOpen over the raw args object: a
notification, no id, no pending entry. -/
def textDocument_didOpenRaw (st : ClientState) (ctx : EditorCtx) (alive : Bool)
    (args : JVal) : OpOut :=
  let info := Effect.logInfo "textDocument/didOpen"
  if !alive then ⟨st, [info], none⟩
  else
    match resolveSingle ctx.bufferName args with
    | .error e => ⟨st, [info], some e⟩
    | .ok filename =>
      ⟨st,
        [info,
         Effect.rpcCall "textDocument/didOpen"
           (.obj [("uri", .str (convertToURI filename)),
                  ("languageId", .str ctx.filetype),
                  ("version", .num 1)]) none], none⟩

/-- The editor-facing entry point of textDocument_didOpen. -/
def textDocument_didOpen (st : ClientState) (ctx : EditorCtx) (alive : Bool)
    (args : List JVal) : OpOut :=
  textDocument_didOpenRaw st ctx alive (.arr args)

/-- LanguageClient.textDocument_hover over the raw args object. -/
def textDocument_hoverRaw (st : ClientState) (ctx : EditorCtx) (alive : Bool)
    (args : JVal) (cbPresent : Bool) : OpOut :=
  let info := Effect.logInfo "textDocument/hover"
  if !alive then ⟨st, [info], none⟩
  else
    match resolveFLC ctx args with
    | .error e => ⟨st, [info], some e⟩
    | .ok (filename, line, character) =>
      let alloc := incMid st
      let cont : Cont := fun result =>
        handleTextDocumentHoverResponse result cbPresent
      let st2 := { alloc.2 with queue := insertQ alloc.2.queue alloc.1 cont }
      ⟨st2,
        [info,
         Effect.rpcCall "textDocument/hover"
           (positionParams filename line character) (some alloc.1)], none⟩

/-- The editor-facing entry point of textDocument_hover. -/
def textDocument_hover (st : ClientState) (ctx : EditorCtx) (alive : Bool)
    (args : List JVal) (cbPresent : Bool) : OpOut :=
  textDocument_hoverRaw st ctx alive (.arr args) cbPresent

/-- LanguageClient.textDocument_definition over the raw args object. -/
def textDocument_definitionRaw (st : ClientState) (ctx : EditorCtx)
    (alive : Bool) (args : JVal) (cbPresent : Bool) : OpOut :=
  let info := Effect.logInfo "textDocument/definition"
  if !alive then ⟨st, [info], none⟩
  else
    match resolveFLC ctx args with
    | .error e => ⟨st, [info], some e⟩
    | .ok (filename, line, character) =>
      let alloc := incMid st
      let cont : Cont := fun result =>
        handleTextDocumentDefinitionResponse result cbPresent
      let st2 := { alloc.2 with queue := insertQ alloc.2.queue alloc.1 cont }
      ⟨st2,
        [info,
         Effect.rpcCall "textDocument/definition"
           (positionParams filename line character) (some alloc.1)], none⟩

/-- The editor-facing entry point of textDocument_definition. -/
def textDocument_definition (st : ClientState) (ctx : EditorCtx) (alive : Bool)
    (args : List JVal) (cbPresent : Bool) : OpOut :=
  textDocument_definitionRaw st ctx alive (.arr args) cbPresent

/-- LanguageClient.textDocument_rename over the raw args object: the
continuation is bound to the pre-rename cursor position and the
callback. -/
def textDocument_renameRaw (st : ClientState) (ctx : EditorCtx) (alive : Bool)
    (args : JVal) (cbPresent : Bool) : OpOut :=
  let info := Effect.logInfo "textDocument/rename"
  if !alive then ⟨st, [info], none⟩
  else
    match resolveRenameArgs ctx args with
    | .error e => ⟨st, [info], some e⟩
    | .ok (filename, line, character, newName) =>
      let alloc := incMid st
      let cont : Cont := fun result =>
        handleTextDocumentRenameResponse result [line, character] cbPresent
      let st2 := { alloc.2 with queue := insertQ alloc.2.queue alloc.1 cont }
      ⟨st2,
        [info,
         Effect.rpcCall "textDocument/rename"
           (.obj [("textDocument", .obj [("uri", .str (convertToURI filename))]),
                  ("position", .obj [("line", line), ("character", character)]),
                  ("newName", newName)]) (some alloc.1)], none⟩

/-- The editor-facing entry point of textDocument_rename. -/
def textDocument_rename (st : ClientState) (ctx : EditorCtx) (alive : Bool)
    (args : List JVal) (cbPresent : Bool) : OpOut :=
  textDocument_renameRaw st ctx alive (.arr args) cbPresent

/-- LanguageClient.textDocument_documentSymbol over the raw args object. -/
def textDocument_documentSymbolRaw (st : ClientState) (ctx : EditorCtx)
    (alive : Bool) (args : JVal) (cbPresent : Bool) : OpOut :=
  let info := Effect.logInfo "textDocument/documentSymbol"
  if !alive then ⟨st, [info], none⟩
  else
    match resolveSingle ctx.bufferName args with
    | .error e => ⟨st, [info], some e⟩
    | .ok filename =>
      let alloc := incMid st
      let cont : Cont := fun result =>
        handleTextDocumentDocumentSymbolResponse result cbPresent
      let st2 := { alloc.2 with queue := insertQ alloc.2.queue alloc.1 cont }
      ⟨st2,
        [info,
         Effect.rpcCall "textDocument/documentSymbol"
           (.obj [("textDocument", .obj [("uri", .str (convertToURI filename))])])
           (some alloc.1)], none⟩

/-- The editor-facing entry point of textDocument_documentSymbol. -/
def textDocument_documentSymbol (st : ClientState) (ctx : EditorCtx)
    (alive : Bool) (args : List JVal) (cbPresent : Bool) : OpOut :=
  textDocument_documentSymbolRaw st ctx alive (.arr args) cbPresent

/-- n successive calls to incMid, collecting the returned ids. -/
def runAlloc : ClientState → Nat → List Nat × ClientState
  | st, 0 => ([], st)
  | st, n + 1 =>
    let alloc := incMid st
    let rest := runAlloc alloc.2 n
    (alloc.1 :: rest.1, rest.2)

/-- Inbound messages as the dispatcher distinguishes them: an `error` key
wins, else a `result` key, else the method/params form. The claims concern
the protocol shapes in which responses carry an id and notifications carry
a method string and a params payload; handleJVal below covers messages of
arbitrary shape as they reoccur through getattr dispatch. -/
inductive Message : Type where
  | response : Nat → JVal → Message
  | errorResponse : Nat → JVal → Message
  | notification : String → JVal → Message

/-- Outcome of one structured handle step: the pending table afterwards,
the effects emitted, the ids whose continuation was invoked during the
step, and the exception escaping the step, if any. -/
structure HandleOut where
  queue : List (Nat × Cont)
  effects : List Effect
  invoked : List Nat
  raised : Option PyErr

/-- Outcome of a getattr-dispatched call or of handle re-entered on a raw
payload: the full client state afterwards (mid counter included), the
effects, the ids whose continuation was invoked, and the escaping
exception, if any. -/
structure DispatchOut where
  state : ClientState
  effects : List Effect
  invoked : List Nat
  raised : Option PyErr

/-- The int key of self.queue denoted by an id value taken from a raw
message: ids allocated by incMid are exactly the naturals, so a
non-negative int denotes its key and any other hashable value (string,
None, negative int) misses the dict; an unhashable value (list, dict)
raises TypeError. -/
def queueKey : JVal → Except PyErr (Option Nat)
  | .num n => .ok (if 0 ≤ n then some n.toNat else none)
  | .str _ => .ok none
  | .null => .ok none
  | .arr _ => .error .typeError
  | .obj _ => .error .typeError

/-- self.queue[mid] for an id taken from a raw message: the key and its
continuation, or KeyError / TypeError. -/
def queueGet (q : List (Nat × Cont)) (midv : JVal) : Except PyErr (Nat × Cont) :=
  match queueKey midv with
  | .error e => .error e
  | .ok none => .error .keyError
  | .ok (some k) =>
    match lookupQ q k with
    | some cont => .ok (k, cont)
    | none => .error .keyError

/-- del self.queue[mid] for an id taken from a raw message. -/
def queueDel (q : List (Nat × Cont)) (midv : JVal) :
    Except PyErr (List (Nat × Cont)) :=
  match queueKey midv with
  | .error e => .error e
  | .ok none => .error .keyError
  | .ok (some k) =>
    if (lookupQ q k).isSome then .ok (eraseQ q k) else .error .keyError

/-- The attribute names of a LanguageClient instance during dispatch, as
hasattr sees them: the data attributes bound in the constructor (nvim,
server, mid, queue, capabilities) and in start (rpc, which exists once the
dispatcher thread runs), and the methods of the class. Attributes
inherited from object (interpreter-dependent dunder names such as
__class__ or __init__) are outside the model; no analysis-protocol method
string maps to them. -/
def attrNames : List String :=
  ["nvim", "server", "mid", "queue", "capabilities", "rpc",
   "incMid", "asyncEval", "asyncCommand", "asyncEcho", "getPos",
   "applyChanges", "alive", "start",
   "initialize", "handleInitializeResponse",
   "textDocument_didOpen",
   "textDocument_hover", "handleTextDocumentHoverResponse",
   "textDocument_definition", "handleTextDocumentDefinitionResponse",
   "textDocument_rename", "handleTextDocumentRenameResponse",
   "textDocument_documentSymbol", "handleTextDocumentDocumentSymbolResponse",
   "textDocument_publishDiagnostics", "handle"]

/-- Lift an Adapter-operation outcome to a dispatch outcome (an operation
invokes no continuation itself). -/
def opDispatch (o : OpOut) : DispatchOut :=
  ⟨o.state, o.effects, [], o.raised⟩

/-- getattr(self, name)(params) for every instance attribute except the
re-entrant handle (spelled out in handleJVal and invokeAttr below):
calling the named attribute with the message params as the single
positional argument. Data attributes are not callable (TypeError); methods
taking no argument beyond self, or more required arguments than the one
supplied, raise TypeError at the call before their bodies run; the
remaining methods run their bodies with args=params and the optional cb
defaulting to None. asyncEval and asyncCommand schedule the raw payload on
the editor (rendered here by pyStr; a malformed payload would only fail
later on the editor thread); asyncEcho applies util.escape (outside the
verified sources), whose string operations raise AttributeError on a
non-string. A name that is no attribute raises AttributeError from getattr
(the dispatch sites check hasattr first, so that case is not reached from
handle). -/
def invokeAttrBase (ctx : EditorCtx) (alive : Bool) (name : String)
    (st : ClientState) (params : JVal) : DispatchOut :=
  if name = "nvim" ∨ name = "server" ∨ name = "mid" ∨ name = "queue"
      ∨ name = "capabilities" ∨ name = "rpc" then
    ⟨st, [], [], some .typeError⟩
  else if name = "incMid" ∨ name = "getPos" ∨ name = "alive"
      ∨ name = "start" then
    ⟨st, [], [], some .typeError⟩
  else if name = "applyChanges" ∨ name = "handleInitializeResponse"
      ∨ name = "handleTextDocumentHoverResponse"
      ∨ name = "handleTextDocumentDefinitionResponse"
      ∨ name = "handleTextDocumentRenameResponse"
      ∨ name = "handleTextDocumentDocumentSymbolResponse" then
    ⟨st, [], [], some .typeError⟩
  else if name = "asyncEval" then
    ⟨st, [Effect.evalExpr params.pyStr], [], none⟩
  else if name = "asyncCommand" then
    ⟨st, [Effect.command params.pyStr], [], none⟩
  else if name = "asyncEcho" then
    match params with
    | .str s => ⟨st, [Effect.echo s], [], none⟩
    | _ => ⟨st, [], [], some .attributeError⟩
  else if name = "initialize" then
    opDispatch (initializeOpRaw st ctx alive params false)
  else if name = "textDocument_didOpen" then
    opDispatch (textDocument_didOpenRaw st ctx alive params)
  else if name = "textDocument_hover" then
    opDispatch (textDocument_hoverRaw st ctx alive params false)
  else if name = "textDocument_definition" then
    opDispatch (textDocument_definitionRaw st ctx alive params false)
  else if name = "textDocument_rename" then
    opDispatch (textDocument_renameRaw st ctx alive params false)
  else if name = "textDocument_documentSymbol" then
    opDispatch (textDocument_documentSymbolRaw st ctx alive params false)
  else if name = "textDocument_publishDiagnostics" then
    let res := textDocument_publishDiagnostics params
    ⟨st, res.1, [], res.2⟩
  else
    ⟨st, [], [], some .attributeError⟩

/-- LanguageClient.handle re-entered through getattr dispatch with a raw
payload in the message position. Mirrors handle on arbitrary JSON values:
subscripts that the structured Message shape guarantees can here miss or
mistype, raising out of this call (to be caught at the dispatching
except). For a non-dict message every branch raises TypeError at its first
subscript before emitting any effect: a string or list passes the
error/result membership tests without raising and then fails at
message[id], message[error] or message[method] (string and list
subscripts with a string index raise TypeError); numbers and None already
fail the first membership test. The notification branch spells getattr
dispatch as: the handle attribute re-enters this function on the params
payload, every other attribute is invokeAttrBase. -/
def handleJVal (ctx : EditorCtx) (alive : Bool) (st : ClientState)
    (msg : JVal) : DispatchOut :=
  match msg with
  | .obj fields =>
    if (List.lookup "error" fields).isSome then
      match
        (match List.lookup "id" fields with
         | some midv => queueDel st.queue midv
         | none => .ok st.queue) with
      | .error e => ⟨st, [], [], some e⟩
      | .ok q2 =>
        match List.lookup "error" fields with
        | none => ⟨{ st with queue := q2 }, [], [], some .keyError⟩
        | some errv =>
          match errv.getField "message" with
          | .ok (.str m) =>
            ⟨{ st with queue := q2 },
             [Effect.echo ("LanguageClient: " ++ m), Effect.logError], [], none⟩
          | .ok _ => ⟨{ st with queue := q2 }, [], [], some .typeError⟩
          | .error e => ⟨{ st with queue := q2 }, [], [], some e⟩
    else if (List.lookup "result" fields).isSome then
      match List.lookup "id" fields with
      | none => ⟨st, [], [], some .keyError⟩
      | some midv =>
        let resultv := match List.lookup "result" fields with
          | some rv => rv
          | none => .null
        match queueGet st.queue midv with
        | .error _ =>
          match queueDel st.queue midv with
          | .error e2 =>
            ⟨st, [Effect.logException "Exception in handle."], [], some e2⟩
          | .ok q2 =>
            ⟨{ st with queue := q2 },
             [Effect.logException "Exception in handle."], [], none⟩
        | .ok (k, cont) =>
          let res := cont resultv
          let effs := res.1 ++ (match res.2 with
            | none => []
            | some _ => [Effect.logException "Exception in handle."])
          match queueDel st.queue midv with
          | .error e2 => ⟨st, effs, [k], some e2⟩
          | .ok q2 => ⟨{ st with queue := q2 }, effs, [k], none⟩
    else
      match List.lookup "method" fields with
      | none => ⟨st, [], [], some .keyError⟩
      | some (.str method) =>
        let name := methodHandlerName method
        if attrNames.contains name then
          match hp : List.lookup "params" fields with
          | some paramsv =>
            let d :=
              if name = "handle" then handleJVal ctx alive st paramsv
              else invokeAttrBase ctx alive name st paramsv
            ⟨d.state,
             d.effects ++ (match d.raised with
               | none => []
               | some _ => [Effect.logException "Exception in handle"]),
             d.invoked, none⟩
          | none => ⟨st, [Effect.logException "Exception in handle"], [], none⟩
        else
          ⟨st, [Effect.logWarn ("no handler implemented for " ++ name)], [], none⟩
      | some _ => ⟨st, [], [], some .attributeError⟩
  | _ => ⟨st, [], [], some .typeError⟩
termination_by sizeOf msg
decreasing_by
  have hlt : ∀ (fs : List (String × JVal)) (v : JVal),
      List.lookup "params" fs = some v → sizeOf v < sizeOf (JVal.obj fs) := by
    intro fs
    induction fs with
    | nil => intro v hv; simp [List.lookup] at hv
    | cons p t ih =>
      intro v hv
      obtain ⟨k2, v2⟩ := p
      rw [List.lookup] at hv
      by_cases hk : ("params" == k2) = true
      · rw [hk] at hv
        simp only [Option.some.injEq] at hv
        subst hv
        simp only [JVal.obj.sizeOf_spec, List.cons.sizeOf_spec,
          Prod.mk.sizeOf_spec]
        omega
      · rw [Bool.not_eq_true] at hk
        rw [hk] at hv
        have := ih v hv
        simp only [JVal.obj.sizeOf_spec, List.cons.sizeOf_spec,
          Prod.mk.sizeOf_spec] at *
        omega
  exact hlt _ _ hp

/-- getattr(self, name)(params): the handle attribute re-enters the
dispatcher on the params payload; every other attribute is
invokeAttrBase. -/
def invokeAttr (ctx : EditorCtx) (alive : Bool) (name : String)
    (st : ClientState) (params : JVal) : DispatchOut :=
  if name = "handle" then handleJVal ctx alive st params
  else invokeAttrBase ctx alive name st params

/-- LanguageClient.handle, one dispatch step on a protocol-shaped message,
given the ambient editor context and subprocess liveness that a dispatched
attribute call may read.

Error branch: delete the pending entry (KeyError escapes when the id is
unknown), echo the error message, log the full message.

Result branch: invoke the continuation under a bare except that logs; the
deletion afterwards sits outside the try, so an unknown id raises KeyError
out of the step after the lookup failure was logged.

Otherwise: derive the handler name; when the instance has an attribute of
that name, invoke it with the params via getattr under a bare except that
logs (invokeAttr carries the full post-state; HandleOut reports the
pending table, and no claim chains a notification step through the mid
counter); when no attribute matches, log at warning level and drop. -/
def handle (st : ClientState) (ctx : EditorCtx) (alive : Bool)
    (msg : Message) : HandleOut :=
  match msg with
  | .errorResponse mid error =>
    match lookupQ st.queue mid with
    | some _ =>
      let q := eraseQ st.queue mid
      match error.getField "message" with
      | .ok (.str m) =>
        ⟨q, [Effect.echo ("LanguageClient: " ++ m), Effect.logError], [], none⟩
      | .ok _ => ⟨q, [], [], some .typeError⟩
      | .error e => ⟨q, [], [], some e⟩
    | none => ⟨st.queue, [], [], some .keyError⟩
  | .response mid result =>
    match lookupQ st.queue mid with
    | some cont =>
      let res := cont result
      ⟨eraseQ st.queue mid,
        res.1 ++ (match res.2 with
          | none => []
          | some _ => [Effect.logException "Exception in handle."]),
        [mid], none⟩
    | none =>
      ⟨st.queue, [Effect.logException "Exception in handle."], [], some .keyError⟩
  | .notification method params =>
    let name := methodHandlerName method
    if attrNames.contains name then
      let d := invokeAttr ctx alive name st params
      ⟨d.state.queue,
        d.effects ++ (match d.raised with
          | none => []
          | some _ => [Effect.logException "Exception in handle"]),
        d.invoked, none⟩
    else
      ⟨st.queue, [Effect.logWarn ("no handler implemented for " ++ name)], [], none⟩

/-- Builder for one hover content fragment. -/
def mkFragment (s : String) : JVal :=
  .obj [("value", .str s)]

/-- Builder for a hover result whose contents is a list of fragments. -/
def mkHoverResult (vals : List String) : JVal :=
  .obj [("contents", .arr (vals.map mkFragment))]

/-- Builder for one definition location. -/
def mkLoc (uri : String) (line character : Int) : JVal :=
  .obj [("uri", .str uri),
        ("range", .obj [("start",
          .obj [("line", .num line), ("character", .num character)])])]

/-- Builder for one rename edit from 0-based line, character and newText. -/
def mkEditJ (e : Int × Int × String) : JVal :=
  .obj [("range", .obj [("start",
          .obj [("line", .num e.1), ("character", .num e.2.1)])]),
        ("newText", .str e.2.2)]

/-- Builder for a rename changes dict from per-document edit lists. -/
def mkChangesJ (docs : List (String × List (Int × Int × String))) : JVal :=
  .obj (docs.map (fun d => (d.1, JVal.arr (d.2.map mkEditJ))))

/-- The normal-mode command applyChanges emits for one edit: a function of
that edit alone, with both coordinates shifted to 1-based. -/
def editCmd (e : Int × Int × String) : Effect :=
  .command ("normal! " ++ toString (e.1 + 1) ++ "G"
    ++ toString (e.2.1 + 1) ++ "|cw" ++ e.2.2)

/-- Recognizer for caller-supplied-callback invocations among effects. -/
def isCallbackEff : Effect → Bool
  | .callback _ => true
  | _ => false

theorem lookupQ_insertQ_self (q : List (Nat × Cont)) (k : Nat) (v : Cont) :
    lookupQ (insertQ q k v) k = some v := by
  simp [lookupQ, insertQ, List.lookup]

theorem lookupQ_eraseQ_self (q : List (Nat × Cont)) (k : Nat) :
    lookupQ (eraseQ q k) k = none := by
  induction q with
  | nil => rfl
  | cons p t ih =>
    obtain ⟨k2, v⟩ := p
    by_cases h : k2 = k
    · simpa [eraseQ, List.filter_cons, h] using ih
    · have hb : (k2 != k) = true := by simpa using h
      have hbk : (k == k2) = false := by simpa using Ne.symm h
      simpa [eraseQ, lookupQ, List.filter_cons, hb, List.lookup, hbk] using ih

theorem hoverFold_map (vals : List String) (acc : String) :
    hoverFold (vals.map mkFragment) acc
      = .ok (vals.foldl (fun a s => a ++ s) acc) := by
  induction vals generalizing acc with
  | nil => rfl
  | cons s rest ih =>
    have h : hoverFold ((s :: rest).map mkFragment) acc
        = hoverFold (rest.map mkFragment) (acc ++ s) := rfl
    rw [h, ih]
    rfl

/-- Evaluation of the hover continuation on a well-formed result: echo the
in-order concatenation, then the callback with it when present. -/
theorem hover_handler_eval (vals : List String) (cbPresent : Bool) :
    handleTextDocumentHoverResponse (mkHoverResult vals) cbPresent
      = ([Effect.echo (String.join vals)]
          ++ (if cbPresent then [Effect.callback (.str (String.join vals))]
              else []), none) := by
  have h : (mkHoverResult vals).getField "contents"
      = .ok (.arr (vals.map mkFragment)) := rfl
  simp [handleTextDocumentHoverResponse, h, hoverFold_map, String.join]

/-- Evaluation of the definition continuation on a nonempty location list:
a warning exactly when extra locations exist, one cursor move built from
the first location only, then the callback with the 1-based pair. -/
theorem definition_handler_eval (uri : String) (line0 character0 : Int)
    (rest : List JVal) (cbPresent : Bool) :
    handleTextDocumentDefinitionResponse
        (.arr (mkLoc uri line0 character0 :: rest)) cbPresent
      = ((if rest.isEmpty then []
          else [Effect.logWarn "Handling multiple definition are not implemented yet."])
          ++ [Effect.evalExpr ("cursor(" ++ toString (line0 + 1) ++ ", "
                ++ toString (character0 + 1) ++ ")")]
          ++ (if cbPresent then
                [Effect.callback (.arr [.num (line0 + 1), .num (character0 + 1)])]
              else []), none) := by
  cases rest with
  | nil => rfl
  | cons a t => rfl

theorem applyEditList_map (es : List (Int × Int × String)) :
    applyEditList (es.map mkEditJ) = (es.map editCmd, none) := by
  induction es with
  | nil => rfl
  | cons e rest ih =>
    obtain ⟨l, c, t⟩ := e
    have h : applyEditList (((l, c, t) :: rest).map mkEditJ)
        = (editCmd (l, c, t) :: (applyEditList (rest.map mkEditJ)).1,
           (applyEditList (rest.map mkEditJ)).2) := rfl
    rw [h, ih]
    rfl

theorem applyDocLoop_map (docs : List (String × List (Int × Int × String))) :
    applyDocLoop (docs.map (fun d => (d.1, JVal.arr (d.2.map mkEditJ))))
      = (docs.flatMap (fun d => d.2.map editCmd), none) := by
  induction docs with
  | nil => rfl
  | cons d rest ih =>
    simp [applyDocLoop, applyEditList_map, ih]

/-- Evaluation of the rename continuation on a well-formed changes dict:
the per-edit commands in the given order, then the cursor restore. -/
theorem rename_handler_eval (docs : List (String × List (Int × Int × String)))
    (pl pc : Int) (cbPresent : Bool) :
    handleTextDocumentRenameResponse (.obj [("changes", mkChangesJ docs)])
        [.num pl, .num pc] cbPresent
      = (docs.flatMap (fun d => d.2.map editCmd)
          ++ [Effect.command ("normal! " ++ toString (pl + 1) ++ "G"
                ++ toString (pc + 1) ++ "|")], none) := by
  have h : handleTextDocumentRenameResponse (.obj [("changes", mkChangesJ docs)])
      [.num pl, .num pc] cbPresent
      = applyChanges (mkChangesJ docs) [.num pl, .num pc] := rfl
  rw [h]
  simp [applyChanges, mkChangesJ, applyDocLoop_map, JVal.asInt]

theorem runAlloc_fst (st : ClientState) (n : Nat) :
    (runAlloc st n).1 = List.range' st.mid n := by
  induction n generalizing st with
  | zero => rfl
  | succ k ih => simp [runAlloc, incMid, ih, List.range']

/-- C1 (counterexample): a Response and an ErrorResponse whose id has no
pending entry each make the handle step raise a KeyError, against the
claim that the step never raises. -/
theorem unknown_id_never_raises_cex :
    (handle ⟨0, []⟩ ⟨"buf", "rust", 1, 1, 42⟩ false
        (.errorResponse 5 (.obj [("message", .str "boom")]))).raised
      = some PyErr.keyError ∧
    (handle ⟨0, []⟩ ⟨"buf", "rust", 1, 1, 42⟩ false (.response 5 .null)).raised
      = some PyErr.keyError :=
  ⟨rfl, rfl⟩

/-- C1 (amended): on a Response with unknown id the step logs the caught
lookup failure and invokes no continuation, then raises a KeyError when it
deletes the absent entry; on an ErrorResponse with unknown id it raises a
KeyError at the deletion immediately, logging and invoking nothing; the
pending table is unchanged in both cases. -/
theorem unknown_id_amended (st : ClientState) (ctx : EditorCtx) (alive : Bool)
    (m : Nat) (r err : JVal) (h : lookupQ st.queue m = none) :
    handle st ctx alive (.response m r)
      = ⟨st.queue, [Effect.logException "Exception in handle."], [], some .keyError⟩ ∧
    handle st ctx alive (.errorResponse m err) = ⟨st.queue, [], [], some .keyError⟩ := by
  constructor <;> simp [handle, h]

theorem unknown_id_amended_witness :
    handle ⟨0, []⟩ ⟨"buf", "rust", 1, 1, 42⟩ false (.response 0 .null)
      = ⟨[], [Effect.logException "Exception in handle."], [], some .keyError⟩ ∧
    handle ⟨0, []⟩ ⟨"buf", "rust", 1, 1, 42⟩ false (.errorResponse 0 .null)
      = ⟨[], [], [], some .keyError⟩ :=
  unknown_id_amended ⟨0, []⟩ ⟨"buf", "rust", 1, 1, 42⟩ false 0 .null .null rfl

/-- C2: one handle step invokes at most the continuation of the message id,
and after a Response with id m has been handled, a second Response with the
same id m invokes no continuation at all. -/
theorem continuation_fires_at_most_once (st : ClientState) (ctx : EditorCtx)
    (alive : Bool) (m : Nat) (r r2 : JVal) :
    ((handle st ctx alive (.response m r)).invoked = []
      ∨ (handle st ctx alive (.response m r)).invoked = [m]) ∧
    (handle { mid := st.mid, queue := (handle st ctx alive (.response m r)).queue }
        ctx alive (.response m r2)).invoked = [] := by
  constructor
  · cases h : lookupQ st.queue m <;> simp [handle, h]
  · cases h : lookupQ st.queue m
    · simp [handle, h]
    · simp [handle, h, lookupQ_eraseQ_self]

/-- C3: every Adapter operation invoked while alive() is false returns
after its entry log line with the state (mid counter and pending table)
unchanged, no RPC send, and no exception. -/
theorem dead_adapter_ops_noop (st : ClientState) (ctx : EditorCtx)
    (args : List JVal) (cbPresent : Bool) :
    initializeOp st ctx false args cbPresent
      = ⟨st, [Effect.logInfo "initialize"], none⟩ ∧
    textDocument_didOpen st ctx false args
      = ⟨st, [Effect.logInfo "textDocument/didOpen"], none⟩ ∧
    textDocument_hover st ctx false args cbPresent
      = ⟨st, [Effect.logInfo "textDocument/hover"], none⟩ ∧
    textDocument_definition st ctx false args cbPresent
      = ⟨st, [Effect.logInfo "textDocument/definition"], none⟩ ∧
    textDocument_rename st ctx false args cbPresent
      = ⟨st, [Effect.logInfo "textDocument/rename"], none⟩ ∧
    textDocument_documentSymbol st ctx false args cbPresent
      = ⟨st, [Effect.logInfo "textDocument/documentSymbol"], none⟩ :=
  ⟨rfl, rfl, rfl, rfl, rfl, rfl⟩

/-- C4 (counterexample): rename invoked with a caller-supplied callback,
followed by its matching successful Response, never invokes the callback:
the dispatch succeeds, the continuation runs, and no callback effect is
emitted. -/
theorem rename_callback_never_invoked_cex :
    (handle (textDocument_rename ⟨0, []⟩ ⟨"buf", "rust", 1, 1, 42⟩ true
          [.str "a.rs", .num 1, .num 2, .str "newName"] true).state
        ⟨"buf", "rust", 1, 1, 42⟩ true
        (.response 0 (.obj [("changes", .obj [])]))).raised = none ∧
    (handle (textDocument_rename ⟨0, []⟩ ⟨"buf", "rust", 1, 1, 42⟩ true
          [.str "a.rs", .num 1, .num 2, .str "newName"] true).state
        ⟨"buf", "rust", 1, 1, 42⟩ true
        (.response 0 (.obj [("changes", .obj [])]))).invoked = [0] ∧
    (handle (textDocument_rename ⟨0, []⟩ ⟨"buf", "rust", 1, 1, 42⟩ true
          [.str "a.rs", .num 1, .num 2, .str "newName"] true).state
        ⟨"buf", "rust", 1, 1, 42⟩ true
        (.response 0 (.obj [("changes", .obj [])]))).effects.filter isCallbackEff
      = [] :=
  ⟨rfl, rfl, rfl⟩

/-- C4 (amended): for hover, definition and documentSymbol invoked with a
caller-supplied callback, the matching successful Response makes the
dispatch step invoke exactly that operation's continuation and emit
exactly one callback effect carrying the transformed value (concatenated
hover text, 1-based definition coordinates, the raw symbol list); results
are only ever delivered through these effects, never as a return value.
The rename continuation registers the callback but never invokes it. -/
theorem callback_delivery_amended (st : ClientState) (ctx : EditorCtx)
    (alive : Bool) (f : String) (l c : Int) (vals : List String) (uri : String)
    (dl dc : Int) (rest : List JVal) (sym : JVal) :
    ((handle (textDocument_hover st ctx true [.str f, .num l, .num c] true).state
        ctx alive (.response st.mid (mkHoverResult vals))).raised = none ∧
     (handle (textDocument_hover st ctx true [.str f, .num l, .num c] true).state
        ctx alive (.response st.mid (mkHoverResult vals))).invoked = [st.mid] ∧
     (handle (textDocument_hover st ctx true [.str f, .num l, .num c] true).state
        ctx alive (.response st.mid (mkHoverResult vals))).effects.filter isCallbackEff
       = [Effect.callback (.str (String.join vals))]) ∧
    ((handle (textDocument_definition st ctx true [.str f, .num l, .num c] true).state
        ctx alive (.response st.mid (.arr (mkLoc uri dl dc :: rest)))).raised = none ∧
     (handle (textDocument_definition st ctx true [.str f, .num l, .num c] true).state
        ctx alive (.response st.mid (.arr (mkLoc uri dl dc :: rest)))).invoked = [st.mid] ∧
     (handle (textDocument_definition st ctx true [.str f, .num l, .num c] true).state
        ctx alive (.response st.mid (.arr (mkLoc uri dl dc :: rest)))).effects.filter isCallbackEff
       = [Effect.callback (.arr [.num (dl + 1), .num (dc + 1)])]) ∧
    ((handle (textDocument_documentSymbol st ctx true [.str f] true).state
        ctx alive (.response st.mid sym)).raised = none ∧
     (handle (textDocument_documentSymbol st ctx true [.str f] true).state
        ctx alive (.response st.mid sym)).invoked = [st.mid] ∧
     (handle (textDocument_documentSymbol st ctx true [.str f] true).state
        ctx alive (.response st.mid sym)).effects.filter isCallbackEff
       = [Effect.callback sym]) := by
  refine ⟨⟨?_, ?_, ?_⟩, ⟨?_, ?_, ?_⟩, ⟨?_, ?_, ?_⟩⟩ <;>
    simp [textDocument_hover, textDocument_hoverRaw, textDocument_definition,
      textDocument_definitionRaw, textDocument_documentSymbol,
      textDocument_documentSymbolRaw, resolveFLC, resolveSingle, pyLen,
      pyUnpack3, pyIndex0, incMid, handle, lookupQ_insertQ_self,
      hover_handler_eval, definition_handler_eval,
      handleTextDocumentDocumentSymbolResponse, isCallbackEff,
      List.filter_append, List.filter_cons]

/-- C6: on a hover result whose contents is a list of fragments with string
values, the echoed (and callback-delivered) text is the concatenation of
the values in list order; in particular fragments a, b produce exactly ab. -/
theorem hover_concatenates_fragments (vals : List String) (cbPresent : Bool) :
    handleTextDocumentHoverResponse (mkHoverResult vals) cbPresent
      = ([Effect.echo (String.join vals)]
          ++ (if cbPresent then [Effect.callback (.str (String.join vals))]
              else []), none) ∧
    handleTextDocumentHoverResponse (mkHoverResult ["a", "b"]) false
      = ([Effect.echo "ab"], none) :=
  ⟨hover_handler_eval vals cbPresent, rfl⟩

/-- C7: on a definition result with at least one location, only the first
location is acted on: one cursor move to its 1-based start and the same
pair to the callback; a warning is logged exactly when further locations
were returned, and nothing of those locations is read. -/
theorem definition_first_location_only (uri : String) (line0 character0 : Int)
    (rest : List JVal) (cbPresent : Bool) :
    handleTextDocumentDefinitionResponse
        (.arr (mkLoc uri line0 character0 :: rest)) cbPresent
      = ((if rest.isEmpty then []
          else [Effect.logWarn "Handling multiple definition are not implemented yet."])
          ++ [Effect.evalExpr ("cursor(" ++ toString (line0 + 1) ++ ", "
                ++ toString (character0 + 1) ++ ")")]
          ++ (if cbPresent then
                [Effect.callback (.arr [.num (line0 + 1), .num (character0 + 1)])]
              else []), none) :=
  definition_handler_eval uri line0 character0 rest cbPresent

/-- C8: the ids returned by n successive incMid calls are strictly
increasing, hence pairwise distinct; no id is returned twice. -/
theorem alloc_ids_strictly_increasing (st : ClientState) (n : Nat) :
    List.Pairwise (· < ·) (runAlloc st n).1 ∧ (runAlloc st n).1.Nodup := by
  have h : List.Pairwise (· < ·) (runAlloc st n).1 := by
    rw [runAlloc_fst]
    exact List.pairwise_lt_range' st.mid n
  exact ⟨h, h.imp Nat.ne_of_lt⟩

/-- C9: the rename continuation applies the edits of each document in the
given order, each command built from that edit alone with 1-based
coordinates (no renumbering for earlier edits), and restores the cursor to
the registered pre-rename position last. -/
theorem rename_edits_order_and_restore
    (docs : List (String × List (Int × Int × String))) (pl pc : Int)
    (cbPresent : Bool) :
    handleTextDocumentRenameResponse (.obj [("changes", mkChangesJ docs)])
        [.num pl, .num pc] cbPresent
      = (docs.flatMap (fun d => d.2.map editCmd)
          ++ [Effect.command ("normal! " ++ toString (pl + 1) ++ "G"
                ++ toString (pc + 1) ++ "|")], none) :=
  rename_handler_eval docs pl pc cbPresent

/-- C10: on a definition Response whose result list is empty, the
continuation raises an IndexError at the first-element access; at the
dispatch site this is caught and logged, the step does not raise, the
pending entry is removed, and neither cursor movement nor callback is
emitted. -/
theorem empty_definition_result_isolated (n m : Nat) (q : List (Nat × Cont))
    (cbPresent : Bool) (ctx : EditorCtx) (alive : Bool) :
    handleTextDocumentDefinitionResponse (.arr []) cbPresent
      = ([], some .indexError) ∧
    (handle ⟨n, insertQ q m
        (fun r => handleTextDocumentDefinitionResponse r cbPresent)⟩
      ctx alive (.response m (.arr []))).raised = none ∧
    (handle ⟨n, insertQ q m
        (fun r => handleTextDocumentDefinitionResponse r cbPresent)⟩
      ctx alive (.response m (.arr []))).invoked = [m] ∧
    (handle ⟨n, insertQ q m
        (fun r => handleTextDocumentDefinitionResponse r cbPresent)⟩
      ctx alive (.response m (.arr []))).effects
        = [Effect.logException "Exception in handle."] ∧
    lookupQ (handle ⟨n, insertQ q m
        (fun r => handleTextDocumentDefinitionResponse r cbPresent)⟩
      ctx alive (.response m (.arr []))).queue m = none := by
  refine ⟨rfl, ?_, ?_, ?_, ?_⟩ <;>
    simp [handle, lookupQ_insertQ_self, lookupQ_eraseQ_self,
      handleTextDocumentDefinitionResponse]


end LanguageClient
